import Mathlib

/-!
Shallow embedding of the SoroSusu rotating-savings-circle contract
(src/src/lib.rs) and proofs about it.

Modelling conventions:
* `u64`/`u32`/`u16` arithmetic is `Nat` with explicit overflow guards
  (`chkAddU64`, `chkMulU64`, ...) returning `Option Nat`: Rust's checked
  arithmetic panics on overflow, which we model as `none`.  A Rust `as`
  cast that truncates is an explicit `% U64`.
* Contract entry points are functions `... → State → Option State`;
  `none` models a `panic!` (Soroban calls are atomic, so a panic leaves
  the pre-state unchanged and we never need intermediate states).
* The durable keyed store is a collection of association lists; note that
  `DataKey::Member(Address)` is keyed by the identity alone, exactly as in
  the source, so one `members` list is shared by all circles.
* External collaborators: the value-transfer service is modelled by an
  append-only `transfers` log; NFT mint/burn and the yield venue's
  supply/withdraw calls have no observable effect on contract state and
  are not logged (only `yield_deposited` bookkeeping is kept, as in the
  source).  The health-snapshot event of `deposit` is a pure event whose
  arithmetic cannot overflow, so it is not modelled.
-/

namespace SoroSusu

/-- The modulus of the `u64` machine integers used throughout the contract. -/
def U64 : Nat := 2 ^ 64

/-- The modulus of `u32`. -/
def U32 : Nat := 2 ^ 32

/-- Checked `u64` addition: Rust panics on overflow. -/
def chkAddU64 (a b : Nat) : Option Nat :=
  if a + b < U64 then some (a + b) else none

/-- Checked `u64` multiplication: Rust panics on overflow. -/
def chkMulU64 (a b : Nat) : Option Nat :=
  if a * b < U64 then some (a * b) else none

/-- Checked `u32` addition: Rust panics on overflow. -/
def chkAddU32 (a b : Nat) : Option Nat :=
  if a + b < U32 then some (a + b) else none

/-- The insurance fee of `deposit`:
`((owed as u128 * bps as u128) / 10000) as u64` — computed in `u128`
(which cannot overflow for `u64`/`u32` operands) and truncated to `u64`
by the cast. -/
def insuranceFee (owed bps : Nat) : Nat := owed * bps / 10000 % U64

/-- `bitmap | (1u64 << i)`.  A shift by 64 or more bits panics in Rust. -/
def setBit (b i : Nat) : Option Nat :=
  if i < 64 then some (b ||| (1 <<< i)) else none

/-- `u64::count_ones`: the number of set bits among positions `0..63`. -/
def countOnes (n : Nat) : Nat :=
  (List.range 64).countP (fun i => n.testBit i)

/-- `YIELD_LIQUIDITY_BUFFER_SECS = 60 * 60` from the source. -/
def YIELD_LIQUIDITY_BUFFER_SECS : Nat := 60 * 60

/-- `DURATION_CHANGE_NOTICE_SECS = 72 * 60 * 60` from the source. -/
def DURATION_CHANGE_NOTICE_SECS : Nat := 72 * 60 * 60

/-- Identities (Soroban `Address`) are modelled as naturals. -/
abbrev Addr := Nat

/-- The contract's own address (`env.current_contract_address()`). -/
def contractAddress : Addr := 0

/-- Association-list lookup, modelling the durable store's `get`. -/
def lookupKey {α β : Type} [DecidableEq α] : List (α × β) → α → Option β
  | [], _ => none
  | (k, v) :: rest, k0 => if k = k0 then some v else lookupKey rest k0

/-- Association-list update, modelling the durable store's `set`. -/
def insertKey {α β : Type} [DecidableEq α] : List (α × β) → α → β → List (α × β)
  | [], k, v => [(k, v)]
  | (k0, v0) :: rest, k, v =>
      if k0 = k then (k, v) :: rest else (k0, v0) :: insertKey rest k v

/-- Association-list removal, modelling the durable store's `remove`. -/
def removeKey {α β : Type} [DecidableEq α] : List (α × β) → α → List (α × β)
  | [], _ => []
  | (k0, v0) :: rest, k =>
      if k0 = k then rest else (k0, v0) :: removeKey rest k

/-- `MemberStatus` from the source. -/
inductive MemberStatus : Type where
  | Active : MemberStatus
  | AwaitingReplacement : MemberStatus
  | Ejected : MemberStatus
deriving DecidableEq, Repr

/-- `Member` from the source.  The struct declaration in the source lists
`is_active` while the constructors in `join_circle`/`fill_vacancy` also set
`status` and `total_contributed`; the record here carries every field the
code reads or writes. -/
structure Member : Type where
  address : Addr
  index : Nat
  contribution_count : Nat
  last_contribution_time : Nat
  is_active : Bool
  tier_multiplier : Nat
  status : MemberStatus
  total_contributed : Nat
deriving DecidableEq, Repr

/-- `CircleInfo` from the source.  The three `recovery_*` fields are
modelled from the spec: the social-recovery state (§4.3 of spec.md, read
by src/tests/social_recovery_test.rs) is absent from the `CircleInfo`
declared in src/src/lib.rs. -/
structure CircleInfo : Type where
  id : Nat
  creator : Addr
  contribution_amount : Nat
  max_members : Nat
  member_count : Nat
  current_recipient_index : Nat
  is_active : Bool
  token : Addr
  deadline_timestamp : Nat
  cycle_duration : Nat
  pending_cycle_duration : Nat
  duration_change_effective_at : Nat
  contribution_bitmap : Nat
  payout_bitmap : Nat
  insurance_balance : Nat
  insurance_fee_bps : Nat
  is_insurance_used : Bool
  late_fee_bps : Nat
  proposed_late_fee_bps : Nat
  proposal_votes_bitmap : Nat
  nft_contract : Addr
  is_round_finalized : Bool
  current_pot_recipient : Addr
  member_addresses : List Addr
  yield_deposited : Nat
  recovery_old_address : Option Addr
  recovery_new_address : Option Addr
  recovery_votes_bitmap : Nat
deriving DecidableEq, Repr

/-- One call to the value-transfer service (`token::Client::transfer`). -/
structure Transfer : Type where
  src : Addr
  dst : Addr
  amount : Nat
deriving DecidableEq, Repr

/-- The durable store of the contract instance. -/
structure State : Type where
  circles : List (Nat × CircleInfo)
  circleCount : Nat
  members : List (Addr × Member)
  groupReserve : Option Nat
  pendingExits : List ((Nat × Addr) × Bool)
  roundContributions : List ((Nat × Nat) × Nat)
  scheduledPayout : List (Nat × Nat)
  lendingPool : Option Addr
  admin : Option Addr
  transfers : List Transfer
deriving DecidableEq, Repr

/-- The store before any call: nothing set. -/
def emptyState : State :=
  { circles := [], circleCount := 0, members := [], groupReserve := none,
    pendingExits := [], roundContributions := [], scheduledPayout := [],
    lendingPool := none, admin := none, transfers := [] }

/-- `init` from the source: sets the admin and, when absent, the counter. -/
def init (admin : Addr) (st : State) : State :=
  { st with admin := some admin }

/-- `set_lending_pool` from the source: admin-gated pool configuration. -/
def set_lending_pool (caller pool : Addr) (st : State) : Option State :=
  match st.admin with
  | none => none
  | some a => if caller = a then some { st with lendingPool := some pool } else none

/-- `create_circle` from the source: validates `max_members ≤ 64` and
`insurance_fee_bps ≤ 10000`, allocates the next id and stores a fresh
circle (late fee defaults to 100 bps, deadline `now + cycle_duration`).
The recovery fields are initialised to the spec's "no active proposal"
sentinel. -/
def create_circle (creator : Addr) (amount max_members : Nat) (token : Addr)
    (cycle_duration insurance_fee_bps : Nat) (nft_contract : Addr)
    (now : Nat) (st : State) : Option (State × Nat) :=
  match chkAddU64 st.circleCount 1 with
  | none => none
  | some cid =>
    if max_members > 64 then none
    else if insurance_fee_bps > 10000 then none
    else
      match chkAddU64 now cycle_duration with
      | none => none
      | some deadline =>
        let c : CircleInfo :=
          { id := cid, creator := creator, contribution_amount := amount,
            max_members := max_members, member_count := 0,
            current_recipient_index := 0, is_active := true, token := token,
            deadline_timestamp := deadline, cycle_duration := cycle_duration,
            pending_cycle_duration := 0, duration_change_effective_at := 0,
            contribution_bitmap := 0, payout_bitmap := 0,
            insurance_balance := 0, insurance_fee_bps := insurance_fee_bps,
            is_insurance_used := false, late_fee_bps := 100,
            proposed_late_fee_bps := 0, proposal_votes_bitmap := 0,
            nft_contract := nft_contract, is_round_finalized := false,
            current_pot_recipient := creator, member_addresses := [],
            yield_deposited := 0, recovery_old_address := none,
            recovery_new_address := none, recovery_votes_bitmap := 0 }
        some ({ st with
                  circles := insertKey st.circles cid c,
                  circleCount := cid,
                  groupReserve := some (st.groupReserve.getD 0) }, cid)

/-- `join_circle` from the source: fails when the circle is full, when the
identity already holds a `Member` record (the key is the identity alone),
or when `tier_multiplier = 0`; otherwise appends the member at index
`member_count`. -/
def join_circle (user : Addr) (cid : Nat) (tier_multiplier : Nat)
    (st : State) : Option State :=
  match lookupKey st.circles cid with
  | none => none
  | some c =>
    if c.member_count ≥ c.max_members then none
    else
      match lookupKey st.members user with
      | some _ => none
      | none =>
        if tier_multiplier = 0 then none
        else
          let m : Member :=
            { address := user, index := c.member_count,
              contribution_count := 0, last_contribution_time := 0,
              is_active := true, tier_multiplier := tier_multiplier,
              status := MemberStatus.Active, total_contributed := 0 }
          let c1 : CircleInfo :=
            { c with member_addresses := c.member_addresses ++ [user],
                     member_count := c.member_count + 1 }
          some { st with circles := insertKey st.circles cid c1,
                         members := insertKey st.members user m }

/-- `deposit` from the source, step by step:
1. load the circle; 2. if idle funds are supplied to the yield venue and
`now + 1h ≥ deadline`, recall them (panics when no lending pool is set);
3. the depositor must hold an Active `Member` record — the lookup is by
identity alone, there is no check that the member belongs to this circle;
4. owed = `contribution_amount * tier_multiplier` (checked `u64` mul);
5. when `now > deadline` a late fee `owed * late_fee_bps / 10000` (checked
`u64` mul) is added to the group reserve; 6. the insurance fee
`owed * insurance_fee_bps / 10000` is computed in `u128` and cast to `u64`,
and `owed + fee` is pulled from the depositor; 7.-9. member stats and the
per-round contribution record are updated; 10. the deadline advances by
the current `cycle_duration` (no lazy adoption of a pending duration
appears in the source of `deposit`) and the member's bit is OR-ed into
`contribution_bitmap` — the source never tests whether that bit is
already set. -/
def deposit (user : Addr) (cid : Nat) (now : Nat) (st : State) : Option State :=
  match lookupKey st.circles cid with
  | none => none
  | some c0 =>
    match (if c0.yield_deposited > 0 then
             match chkAddU64 now YIELD_LIQUIDITY_BUFFER_SECS with
             | none => none
             | some t =>
               if t ≥ c0.deadline_timestamp then
                 match st.lendingPool with
                 | none => none
                 | some _ => some { c0 with yield_deposited := 0 }
               else some c0
           else some c0) with
    | none => none
    | some c =>
      match lookupKey st.members user with
      | none => none
      | some m =>
        if m.status ≠ MemberStatus.Active then none
        else
          match chkMulU64 c.contribution_amount m.tier_multiplier with
          | none => none
          | some owed =>
            match (if now > c.deadline_timestamp then
                     match chkMulU64 owed c.late_fee_bps with
                     | none => none
                     | some p =>
                       match chkAddU64 (st.groupReserve.getD 0) (p / 10000) with
                       | none => none
                       | some r => some (some r)
                   else some st.groupReserve) with
            | none => none
            | some reserveAfter =>
              match chkAddU64 owed (insuranceFee owed c.insurance_fee_bps) with
              | none => none
              | some total =>
                match (if insuranceFee owed c.insurance_fee_bps > 0 then
                         chkAddU64 c.insurance_balance
                           (insuranceFee owed c.insurance_fee_bps)
                       else some c.insurance_balance) with
                | none => none
                | some insBal =>
                  match chkAddU32 m.contribution_count 1 with
                  | none => none
                  | some cc =>
                    match chkAddU64 m.total_contributed c.contribution_amount with
                    | none => none
                    | some tc =>
                      match chkAddU64 now c.cycle_duration with
                      | none => none
                      | some newDeadline =>
                        match setBit c.contribution_bitmap m.index with
                        | none => none
                        | some bm =>
                          let m1 : Member :=
                            { m with contribution_count := cc,
                                     last_contribution_time := now,
                                     total_contributed := tc }
                          let c1 : CircleInfo :=
                            { c with insurance_balance := insBal,
                                     deadline_timestamp := newDeadline,
                                     contribution_bitmap := bm }
                          some { st with
                                 circles := insertKey st.circles cid c1,
                                 members := insertKey st.members user m1,
                                 groupReserve := reserveAfter,
                                 roundContributions :=
                                   insertKey st.roundContributions (cid, m.index) owed,
                                 transfers :=
                                   ⟨user, contractAddress, total⟩ :: st.transfers }

/-- `deposit_to_yield_pool` from the source: creator-or-admin gated supply
of idle funds to the lending pool. -/
def deposit_to_yield_pool (caller : Addr) (cid : Nat) (amount : Nat)
    (st : State) : Option State :=
  if amount = 0 then none
  else
    match lookupKey st.circles cid with
    | none => none
    | some c =>
      match st.admin with
      | none => none
      | some a =>
        if caller ≠ c.creator ∧ caller ≠ a then none
        else
          match st.lendingPool with
          | none => none
          | some _ =>
            match chkAddU64 c.yield_deposited amount with
            | none => none
            | some y =>
              some { st with circles :=
                       insertKey st.circles cid { c with yield_deposited := y } }

/-- `prepare_payout_liquidity` from the source: creator-or-admin gated
recall of all supplied funds; a no-op when nothing is supplied.  The
source function additionally contains four stray lines (duration adoption,
deadline reset and a `contribution_bitmap |= 1 << member.index`) that
reference the out-of-scope bindings `current_time` and `member` and so are
not part of any compilable reading of the function; they are omitted
here. -/
def prepare_payout_liquidity (caller : Addr) (cid : Nat)
    (st : State) : Option State :=
  match lookupKey st.circles cid with
  | none => none
  | some c =>
    match st.admin with
    | none => none
    | some a =>
      if caller ≠ c.creator ∧ caller ≠ a then none
      else
        if c.yield_deposited = 0 then some st
        else
          match st.lendingPool with
          | none => none
          | some _ =>
            some { st with circles :=
                     insertKey st.circles cid { c with yield_deposited := 0 } }

/-- `trigger_insurance_coverage` from the source: creator-only; fails when
insurance was already used this cycle, when
`insurance_balance < contribution_amount` (the base amount — the member's
tier multiplier is not consulted, unlike the unreachable multi-sig variant
`execute_trigger_insurance`), when the member is not Active, or when the
member's bit is already set; on success it debits `contribution_amount`,
sets the bit and marks insurance used.  No per-round contribution record
is written. -/
def trigger_insurance_coverage (caller : Addr) (cid : Nat) (memberAddr : Addr)
    (st : State) : Option State :=
  match lookupKey st.circles cid with
  | none => none
  | some c =>
    if caller ≠ c.creator then none
    else if c.is_insurance_used then none
    else if c.insurance_balance < c.contribution_amount then none
    else
      match lookupKey st.members memberAddr with
      | none => none
      | some m =>
        if m.status ≠ MemberStatus.Active then none
        else if c.contribution_bitmap.testBit m.index then none
        else
          match setBit c.contribution_bitmap m.index with
          | none => none
          | some bm =>
            let c1 : CircleInfo :=
              { c with contribution_bitmap := bm,
                       insurance_balance :=
                         c.insurance_balance - c.contribution_amount,
                       is_insurance_used := true }
            some { st with circles := insertKey st.circles cid c1 }

/-- `propose_penalty_change` from the source: requires a stored member
that is active (the source's two nested checks sit around an unbalanced
brace; both tests are kept) and `new_bps ≤ 10000`; resets the vote bitmap
to the proposer's own bit and commits immediately when
`count_ones > member_count / 2`. -/
def propose_penalty_change (user : Addr) (cid : Nat) (new_bps : Nat)
    (st : State) : Option State :=
  match lookupKey st.circles cid with
  | none => none
  | some c =>
    match lookupKey st.members user with
    | none => none
    | some m =>
      if ¬ m.is_active then none
      else if m.status ≠ MemberStatus.Active then none
      else if new_bps > 10000 then none
      else
        match setBit 0 m.index with
        | none => none
        | some votes =>
          let c1 : CircleInfo :=
            if countOnes votes > c.member_count / 2 then
              { c with late_fee_bps := new_bps, proposed_late_fee_bps := 0,
                       proposal_votes_bitmap := 0 }
            else
              { c with proposed_late_fee_bps := new_bps,
                       proposal_votes_bitmap := votes }
          some { st with circles := insertKey st.circles cid c1 }

/-- `propose_duration_change` from the source: creator-or-protocol-admin
only, `new_duration > 0`; stores the pending duration and the effective
time `now + 72h` without touching `cycle_duration`. -/
def propose_duration_change (user : Addr) (cid : Nat) (new_duration : Nat)
    (now : Nat) (st : State) : Option State :=
  if new_duration = 0 then none
  else
    match lookupKey st.circles cid with
    | none => none
    | some c =>
      match st.admin with
      | none => none
      | some a =>
        if user ≠ c.creator ∧ user ≠ a then none
        else
          match chkAddU64 now DURATION_CHANGE_NOTICE_SECS with
          | none => none
          | some eff =>
            let c1 : CircleInfo :=
              { c with pending_cycle_duration := new_duration,
                       duration_change_effective_at := eff }
            some { st with circles := insertKey st.circles cid c1 }

/-- `vote_penalty_change` from the source: requires an Active member and
an active proposal (`proposed_late_fee_bps ≠ 0`); ORs the voter's bit in
and commits the proposed rate when `count_ones > member_count / 2`. -/
def vote_penalty_change (user : Addr) (cid : Nat) (st : State) : Option State :=
  match lookupKey st.circles cid with
  | none => none
  | some c =>
    match lookupKey st.members user with
    | none => none
    | some m =>
      if m.status ≠ MemberStatus.Active then none
      else if c.proposed_late_fee_bps = 0 then none
      else
        match setBit c.proposal_votes_bitmap m.index with
        | none => none
        | some votes =>
          let c1 : CircleInfo :=
            if countOnes votes > c.member_count / 2 then
              { c with late_fee_bps := c.proposed_late_fee_bps,
                       proposed_late_fee_bps := 0,
                       proposal_votes_bitmap := 0 }
            else
              { c with proposal_votes_bitmap := votes }
          some { st with circles := insertKey st.circles cid c1 }

/-- `eject_member` from the source: creator-only; the member must be
Active and is marked Ejected (the NFT burn has no state effect here). -/
def eject_member (caller : Addr) (cid : Nat) (memberAddr : Addr)
    (st : State) : Option State :=
  match lookupKey st.circles cid with
  | none => none
  | some c =>
    if caller ≠ c.creator then none
    else
      match lookupKey st.members memberAddr with
      | none => none
      | some m =>
        if m.status ≠ MemberStatus.Active then none
        else
          let m1 : Member := { m with status := MemberStatus.Ejected }
          some { st with members := insertKey st.members memberAddr m1 }

/-- `request_exit` from the source: an Active member transitions to
AwaitingReplacement and a pending-exit marker is stored. -/
def request_exit (user : Addr) (cid : Nat) (st : State) : Option State :=
  match lookupKey st.circles cid with
  | none => none
  | some _ =>
    match lookupKey st.members user with
    | none => none
    | some m =>
      if m.status ≠ MemberStatus.Active then none
      else
        let m1 : Member := { m with status := MemberStatus.AwaitingReplacement }
        some { st with
               members := insertKey st.members user m1,
               pendingExits := insertKey st.pendingExits (cid, user) true }

/-- `fill_vacancy` from the source: requires a pending-exit marker, the
exiting member in AwaitingReplacement state and a fresh identity (the
`Member` key is the identity alone, so holding a slot in any circle
disqualifies); refunds
`exiting_member.contribution_count * circle.contribution_amount`
(the source's second, shadowing binding of `refund_amount` — principal
only) when it is positive; the replacement member inherits the exiting
member's index.  The `pot_amount` computation in the source is dead code
with an unbalanced brace and no observable effect, and the source's
replacement-member constructor omits the `is_active`/`tier_multiplier`
fields (it does not compile as written); the replacement is modelled as
active with tier 1.  The circle record itself is never written. -/
def fill_vacancy (new_member : Addr) (cid : Nat) (exiting : Addr)
    (st : State) : Option State :=
  match lookupKey st.circles cid with
  | none => none
  | some c =>
    match lookupKey st.pendingExits (cid, exiting) with
    | none => none
    | some _ =>
      match lookupKey st.members exiting with
      | none => none
      | some em =>
        if em.status ≠ MemberStatus.AwaitingReplacement then none
        else
          match lookupKey st.members new_member with
          | some _ => none
          | none =>
            match chkMulU64 em.contribution_count c.contribution_amount with
            | none => none
            | some refund =>
              let log :=
                if refund > 0 then
                  Transfer.mk contractAddress exiting refund :: st.transfers
                else st.transfers
              let repl : Member :=
                { address := new_member, index := em.index,
                  contribution_count := 0, last_contribution_time := 0,
                  is_active := true, tier_multiplier := 1,
                  status := MemberStatus.Active, total_contributed := 0 }
              let em1 : Member := { em with status := MemberStatus.Ejected }
              some { st with
                     members :=
                       insertKey
                         (insertKey st.members new_member repl) exiting em1,
                     pendingExits := removeKey st.pendingExits (cid, exiting),
                     transfers := log }

/-- `execute_finalize_round` from the source: requires the round not yet
finalized and `contribution_bitmap = (1 << member_count) - 1` (the shift
panics when `member_count = 64`, under the checked arithmetic the contract
tests run with); schedules the payout 24h ahead, makes the member at
`current_recipient_index` the pot recipient (`get_member_address_by_index`
panics when that index is not below `member_count`), then resets the
contribution bitmap, records the payout bit, advances the rotation index
modulo `max_members`, zeroes the insurance balance and flag, and drops the
per-round contribution records. -/
def execute_finalize_round (cid : Nat) (now : Nat) (st : State) : Option State :=
  match lookupKey st.circles cid with
  | none => none
  | some c =>
    if c.is_round_finalized then none
    else if c.member_count ≥ 64 then none
    else if c.contribution_bitmap ≠ 2 ^ c.member_count - 1 then none
    else
      match chkAddU64 now 86400 with
      | none => none
      | some sched =>
        if c.current_recipient_index ≥ c.member_count then none
        else
          match c.member_addresses.get? c.current_recipient_index with
          | none => none
          | some recipient =>
            if c.max_members = 0 then none
            else
              match setBit c.payout_bitmap c.current_recipient_index with
              | none => none
              | some pb =>
                let c1 : CircleInfo :=
                  { c with current_pot_recipient := recipient,
                           is_round_finalized := true,
                           contribution_bitmap := 0,
                           payout_bitmap := pb,
                           current_recipient_index :=
                             (c.current_recipient_index + 1) % c.max_members,
                           insurance_balance := 0,
                           is_insurance_used := false }
                some { st with
                       circles := insertKey st.circles cid c1,
                       scheduledPayout := insertKey st.scheduledPayout cid sched,
                       roundContributions :=
                         st.roundContributions.filter
                           (fun kv =>
                             ¬ (kv.1.1 = cid ∧ kv.1.2 < c.member_count)) }

/-- Modelled from the spec: the number of currently-Active members of a
circle (spec §4.3, "strictly more than 70% of currently-Active members,
not all members") — the members listed in the circle's ordered address
list whose `Member` record has status Active. -/
def activeMemberCount (st : State) (c : CircleInfo) : Nat :=
  c.member_addresses.countP (fun a =>
    match lookupKey st.members a with
    | some m => decide (m.status = MemberStatus.Active)
    | none => false)

/-- Modelled from the spec: social-recovery execution (spec §4.3).  The
`Member` record is moved to the new identity key with its index preserved,
the old key is removed, the member-address list entry at that index is
rewritten to the new identity, and the proposal is cleared.  `propose_`
`address_change` and `vote_for_recovery` are exercised by
src/tests/social_recovery_test.rs but absent from src/src/lib.rs. -/
def executeRecovery (cid : Nat) (c : CircleInfo) (oldA newA : Addr)
    (votes : Nat) (st : State) : Option State :=
  if countOnes votes * 100 > activeMemberCount st c * 70 then
    match lookupKey st.members oldA with
    | none => none
    | some om =>
      let om1 : Member := { om with address := newA }
      let c1 : CircleInfo :=
        { c with member_addresses := c.member_addresses.set om.index newA,
                 recovery_old_address := none,
                 recovery_new_address := none,
                 recovery_votes_bitmap := 0 }
      some { st with
             circles := insertKey st.circles cid c1,
             members :=
               removeKey (insertKey st.members newA om1) oldA }
  else
    let c1 : CircleInfo :=
      { c with recovery_old_address := some oldA,
               recovery_new_address := some newA,
               recovery_votes_bitmap := votes }
    some { st with circles := insertKey st.circles cid c1 }

/-- Modelled from the spec: `propose_address_change(user, circle, old,
new)` (spec §4.3) — requires `old ≠ new`, an Active proposer, `old` an
Active member and `new` not already a member; stores the proposal, casts
the proposer's vote and evaluates the `votes × 100 > active × 70`
consensus rule.  Absent from src/src/lib.rs. -/
def propose_address_change (user : Addr) (cid : Nat) (oldA newA : Addr)
    (st : State) : Option State :=
  if oldA = newA then none
  else
    match lookupKey st.circles cid with
    | none => none
    | some c =>
      match lookupKey st.members user with
      | none => none
      | some p =>
        if p.status ≠ MemberStatus.Active then none
        else
          match lookupKey st.members oldA with
          | none => none
          | some om =>
            if om.status ≠ MemberStatus.Active then none
            else
              match lookupKey st.members newA with
              | some _ => none
              | none =>
                match setBit 0 p.index with
                | none => none
                | some votes => executeRecovery cid c oldA newA votes st

/-- Modelled from the spec: `vote_for_recovery(user, circle)` (spec §4.3)
— requires an active recovery proposal and an Active voter; ORs the
voter's bit in and evaluates the `votes × 100 > active × 70` consensus
rule.  Absent from src/src/lib.rs. -/
def vote_for_recovery (user : Addr) (cid : Nat) (st : State) : Option State :=
  match lookupKey st.circles cid with
  | none => none
  | some c =>
    match c.recovery_old_address, c.recovery_new_address with
    | some oldA, some newA =>
      match lookupKey st.members user with
      | none => none
      | some m =>
        if m.status ≠ MemberStatus.Active then none
        else
          match setBit c.recovery_votes_bitmap m.index with
          | none => none
          | some votes => executeRecovery cid c oldA newA votes st
    | _, _ => none

/-- The states reachable through the contract's entry points, starting
from an uninitialised store. -/
inductive Reachable : State → Prop where
  | empty : Reachable emptyState
  | initStep {st a} : Reachable st → Reachable (init a st)
  | poolStep {st st1 a p} : Reachable st →
      set_lending_pool a p st = some st1 → Reachable st1
  | createStep {st st1 creator amount mm token dur bps nft now cid} :
      Reachable st →
      create_circle creator amount mm token dur bps nft now st = some (st1, cid) →
      Reachable st1
  | joinStep {st st1 user cid tier} : Reachable st →
      join_circle user cid tier st = some st1 → Reachable st1
  | depositStep {st st1 user cid now} : Reachable st →
      deposit user cid now st = some st1 → Reachable st1
  | yieldStep {st st1 caller cid amount} : Reachable st →
      deposit_to_yield_pool caller cid amount st = some st1 → Reachable st1
  | liquidityStep {st st1 caller cid} : Reachable st →
      prepare_payout_liquidity caller cid st = some st1 → Reachable st1
  | insuranceStep {st st1 caller cid m} : Reachable st →
      trigger_insurance_coverage caller cid m st = some st1 → Reachable st1
  | proposePenaltyStep {st st1 user cid bps} : Reachable st →
      propose_penalty_change user cid bps st = some st1 → Reachable st1
  | proposeDurationStep {st st1 user cid dur now} : Reachable st →
      propose_duration_change user cid dur now st = some st1 → Reachable st1
  | votePenaltyStep {st st1 user cid} : Reachable st →
      vote_penalty_change user cid st = some st1 → Reachable st1
  | ejectStep {st st1 caller cid m} : Reachable st →
      eject_member caller cid m st = some st1 → Reachable st1
  | exitStep {st st1 user cid} : Reachable st →
      request_exit user cid st = some st1 → Reachable st1
  | vacancyStep {st st1 nm cid ex} : Reachable st →
      fill_vacancy nm cid ex st = some st1 → Reachable st1
  | finalizeStep {st st1 cid now} : Reachable st →
      execute_finalize_round cid now st = some st1 → Reachable st1
  | proposeRecoveryStep {st st1 user cid oldA newA} : Reachable st →
      propose_address_change user cid oldA newA st = some st1 → Reachable st1
  | voteRecoveryStep {st st1 user cid} : Reachable st →
      vote_for_recovery user cid st = some st1 → Reachable st1

-- ===== concrete stores used to exercise the operations =====

/-- Placeholder member for total projections out of `Option`. -/
def dummyMember : Member :=
  { address := 0, index := 0, contribution_count := 0,
    last_contribution_time := 0, is_active := false, tier_multiplier := 0,
    status := MemberStatus.Ejected, total_contributed := 0 }

/-- Placeholder circle for total projections out of `Option`. -/
def dummyCircle : CircleInfo :=
  { id := 0, creator := 0, contribution_amount := 0, max_members := 0,
    member_count := 0, current_recipient_index := 0, is_active := false,
    token := 0, deadline_timestamp := 0, cycle_duration := 0,
    pending_cycle_duration := 0, duration_change_effective_at := 0,
    contribution_bitmap := 0, payout_bitmap := 0, insurance_balance := 0,
    insurance_fee_bps := 0, is_insurance_used := false, late_fee_bps := 0,
    proposed_late_fee_bps := 0, proposal_votes_bitmap := 0, nft_contract := 0,
    is_round_finalized := false, current_pot_recipient := 0,
    member_addresses := [], yield_deposited := 0,
    recovery_old_address := none, recovery_new_address := none,
    recovery_votes_bitmap := 0 }

/-- Store after `init` by admin `100`. -/
def s0 : State := init 100 emptyState

/-- Creator `1` opens circle `1`: 1000 per round, 2 slots, weekly cycle,
no insurance fee, at time 0. -/
def sA : State :=
  ((create_circle 1 1000 2 50 604800 0 60 0 s0).map Prod.fst).getD emptyState

/-- Identity `10` joins circle `1` at tier 1 (index 0). -/
def sB : State := (join_circle 10 1 1 sA).getD emptyState

/-- Identity `11` joins circle `1` at tier 1 (index 1). -/
def sC : State := (join_circle 11 1 1 sB).getD emptyState

/-- Identity `10` deposits on time (t = 5): its bit 0 is now set. -/
def sD : State := (deposit 10 1 5 sC).getD emptyState

/-- Identity `10` deposits a second time in the same round (t = 6). -/
def sE : State := (deposit 10 1 6 sD).getD emptyState

/-- The circle record of `sC`. -/
def cC : CircleInfo := (lookupKey sC.circles 1).getD dummyCircle

/-- The member record of identity `10` in `sC`. -/
def mC : Member := (lookupKey sC.members 10).getD dummyMember

/-- From `sC`, creator `1` opens a second circle `2` (500 per round, 2
slots) which nobody has joined. -/
def s9A : State :=
  ((create_circle 1 500 2 50 604800 0 60 0 sC).map Prod.fst).getD emptyState

/-- Identity `11` — a member of circle `1` with index 1, not of circle
`2` — deposits into the empty circle `2`. -/
def s9B : State := (deposit 11 2 0 s9A).getD emptyState

/-- From `sB`, the creator proposes cycle duration 2592000 at t = 0
(effective at t = 259200). -/
def s7A : State := (propose_duration_change 1 1 2592000 0 sB).getD emptyState

/-- Identity `10` deposits at exactly the effective time t = 259200. -/
def s7B : State := (deposit 10 1 259200 s7A).getD emptyState

/-- Identity `10` deposits just before the effective time (t = 259199). -/
def s7C : State := (deposit 10 1 259199 s7A).getD emptyState

/-- A high-stake circle for the late-fee arithmetic: creator `1`, 100000
per round (so the base late fee at the default 100 bps is exactly 1000),
joined by identity `10`. -/
def s3A : State :=
  (((create_circle 1 100000 2 50 604800 0 60 0 s0).map Prod.fst).getD
      emptyState |> join_circle 10 1 1).getD emptyState

/-- The circle record of `s3A`. -/
def c3A : CircleInfo := (lookupKey s3A.circles 1).getD dummyCircle

/-- The member record of identity `10` in `s3A`. -/
def m3A : Member := (lookupKey s3A.members 10).getD dummyMember

/-- Identity `10` deposits late (t = 700000 > deadline 604800). -/
def s3B : State := (deposit 10 1 700000 s3A).getD emptyState

/-- A circle with a 10% insurance fee (1000 bps), 1000 per round, joined
by identity `10` at tier 1. -/
def s2A : State :=
  (((create_circle 1 1000 2 50 604800 1000 60 0 s0).map Prod.fst).getD
      emptyState |> join_circle 10 1 1).getD emptyState

/-- The circle record of `s2A`. -/
def c2A : CircleInfo := (lookupKey s2A.circles 1).getD dummyCircle

/-- The member record of identity `10` in `s2A`. -/
def m2A : Member := (lookupKey s2A.members 10).getD dummyMember

/-- Identity `10` deposits on time (t = 5): 1000 owed plus 100 insurance
fee are pulled. -/
def s2B : State := (deposit 10 1 5 s2A).getD emptyState

/-- A circle with a tier-2 member and an insurance balance strictly
between the base contribution amount (1000) and the member's owed amount
(2000). -/
def c4circle : CircleInfo :=
  { id := 1, creator := 1, contribution_amount := 1000, max_members := 4,
    member_count := 2, current_recipient_index := 0, is_active := true,
    token := 50, deadline_timestamp := 1000000, cycle_duration := 604800,
    pending_cycle_duration := 0, duration_change_effective_at := 0,
    contribution_bitmap := 0, payout_bitmap := 0, insurance_balance := 1500,
    insurance_fee_bps := 1000, is_insurance_used := false,
    late_fee_bps := 100, proposed_late_fee_bps := 0,
    proposal_votes_bitmap := 0, nft_contract := 60,
    is_round_finalized := false, current_pot_recipient := 1,
    member_addresses := [10, 11], yield_deposited := 0,
    recovery_old_address := none, recovery_new_address := none,
    recovery_votes_bitmap := 0 }

/-- The tier-2 defaulting member covered by insurance. -/
def c4member : Member :=
  { address := 11, index := 1, contribution_count := 0,
    last_contribution_time := 0, is_active := true, tier_multiplier := 2,
    status := MemberStatus.Active, total_contributed := 0 }

/-- Store holding `c4circle` and `c4member`. -/
def c4state : State :=
  { emptyState with circles := [(1, c4circle)],
                    members := [(11, c4member)], admin := some 100 }

/-- A circle of 500 per round whose member `11` (index 1) has contributed
3 times and awaits replacement, with the pending-exit marker set. -/
def c8circle : CircleInfo := { c4circle with contribution_amount := 500 }

/-- The exiting member for the vacancy-refund scenario. -/
def c8member : Member :=
  { c4member with contribution_count := 3,
                  status := MemberStatus.AwaitingReplacement,
                  total_contributed := 1500 }

/-- Store holding `c8circle`, `c8member` and the pending-exit marker. -/
def c8state : State :=
  { emptyState with circles := [(1, c8circle)],
                    members := [(11, c8member)],
                    pendingExits := [((1, 11), true)], admin := some 100 }

/-- A six-slot circle joined by four tier-1 members `10..13`
(indices 0..3), all Active. -/
def s5A : State :=
  ((((create_circle 1 1000 6 50 604800 0 60 0 s0).map Prod.fst).getD
        emptyState |> join_circle 10 1 1).getD emptyState
      |> join_circle 11 1 1).getD emptyState

/-- Members `12` and `13` also join (4 Active members overall). -/
def s5B : State :=
  ((s5A |> join_circle 12 1 1).getD emptyState |> join_circle 13 1 1).getD
    emptyState

/-- Member `10` proposes recovering slot of `13` to new identity `99`
(auto-vote: 1 of 4 = 25%, below the 70% bar). -/
def s5C : State := (propose_address_change 10 1 13 99 s5B).getD emptyState

/-- Member `11` votes (2 of 4 = 50%, still below the bar). -/
def s5D : State := (vote_for_recovery 11 1 s5C).getD emptyState

/-- The circle record of `s5D`. -/
def c5D : CircleInfo := (lookupKey s5D.circles 1).getD dummyCircle

/-- The voting member `12` of `s5D`. -/
def m5D : Member := (lookupKey s5D.members 12).getD dummyMember

/-- The old-identity member `13` of `s5D`. -/
def om5D : Member := (lookupKey s5D.members 13).getD dummyMember

/-- Member `12` votes (3 of 4 = 75%, crosses the bar — executes). -/
def s5E : State := (vote_for_recovery 12 1 s5D).getD emptyState

/-- A five-slot circle joined by three tier-1 members `10..12`
(indices 0..2), all Active: the N = 3 governance example. -/
def s6A : State :=
  (((((create_circle 1 1000 5 50 604800 0 60 0 s0).map Prod.fst).getD
          emptyState |> join_circle 10 1 1).getD emptyState
        |> join_circle 11 1 1).getD emptyState
      |> join_circle 12 1 1).getD emptyState

/-- Member `10` proposes 500 bps (auto-vote, 1 of 3: not committed). -/
def s6B : State := (propose_penalty_change 10 1 500 s6A).getD emptyState

/-- The circle record of `s6B`. -/
def c6B : CircleInfo := (lookupKey s6B.circles 1).getD dummyCircle

/-- The voting member `11` of `s6B`. -/
def m6B : Member := (lookupKey s6B.members 11).getD dummyMember

/-- Member `11` votes (2 of 3: strict majority, commits). -/
def s6C : State := (vote_penalty_change 11 1 s6B).getD emptyState

/-- The per-circle structural invariant of the spec that the code
maintains: the member count respects the 64-slot cap and the payout
bitmap only marks existing member indices. -/
def CircleInv (c : CircleInfo) : Prop :=
  c.member_count ≤ c.max_members ∧ c.max_members ≤ 64 ∧
  ∀ i, c.payout_bitmap.testBit i = true → i < c.member_count

/-- `CircleInv` for every circle value held in the store. -/
def CirclesInv (l : List (Nat × CircleInfo)) : Prop :=
  ∀ p ∈ l, CircleInv p.2

/-- The store-wide invariant. -/
def Inv (st : State) : Prop := CirclesInv st.circles

-- ===== association-list lemmas =====

theorem lookupKey_insertKey_self {α β : Type} [DecidableEq α]
    (l : List (α × β)) (k : α) (v : β) :
    lookupKey (insertKey l k v) k = some v := by
  induction l with
  | nil => simp [insertKey, lookupKey]
  | cons p rest ih =>
    obtain ⟨k0, v0⟩ := p
    by_cases h : k0 = k
    · simp [insertKey, h, lookupKey]
    · simp [insertKey, h, lookupKey, ih]

theorem lookupKey_insertKey_ne {α β : Type} [DecidableEq α]
    (l : List (α × β)) (k k1 : α) (v : β) (h : k ≠ k1) :
    lookupKey (insertKey l k v) k1 = lookupKey l k1 := by
  induction l with
  | nil => simp [insertKey, lookupKey, h]
  | cons p rest ih =>
    obtain ⟨k0, v0⟩ := p
    by_cases h0 : k0 = k
    · subst h0
      simp [insertKey, lookupKey, h]
    · simp [insertKey, h0, lookupKey, ih]

theorem snd_mem_insertKey {α β : Type} [DecidableEq α]
    {l : List (α × β)} {k : α} {v : β} {p : α × β}
    (hp : p ∈ insertKey l k v) : p.2 = v ∨ p ∈ l := by
  induction l with
  | nil =>
    simp only [insertKey, List.mem_singleton] at hp
    left; rw [hp]
  | cons q rest ih =>
    obtain ⟨k0, v0⟩ := q
    simp only [insertKey] at hp
    by_cases h : k0 = k
    · rw [if_pos h] at hp
      rcases List.mem_cons.mp hp with hp1 | hp1
      · left; rw [hp1]
      · right; exact List.mem_cons_of_mem _ hp1
    · rw [if_neg h] at hp
      rcases List.mem_cons.mp hp with hp1 | hp1
      · right; rw [hp1]; exact List.mem_cons_self _ _
      · rcases ih hp1 with h1 | h1
        · left; exact h1
        · right; exact List.mem_cons_of_mem _ h1

theorem lookupKey_mem {α β : Type} [DecidableEq α]
    {l : List (α × β)} {k : α} {v : β}
    (h : lookupKey l k = some v) : (k, v) ∈ l ∨ ∃ k0, (k0, v) ∈ l := by
  induction l with
  | nil => simp [lookupKey] at h
  | cons p rest ih =>
    obtain ⟨k0, v0⟩ := p
    simp only [lookupKey] at h
    by_cases h0 : k0 = k
    · rw [if_pos h0, Option.some_inj] at h
      subst h0; subst h
      left; exact List.mem_cons_self _ _
    · rw [if_neg h0] at h
      rcases ih h with h1 | ⟨k1, h1⟩
      · left; exact List.mem_cons_of_mem _ h1
      · right; exact ⟨k1, List.mem_cons_of_mem _ h1⟩

theorem CirclesInv_insert {l : List (Nat × CircleInfo)} {k : Nat}
    {v : CircleInfo} (h : CirclesInv l) (hv : CircleInv v) :
    CirclesInv (insertKey l k v) := by
  intro p hp
  rcases snd_mem_insertKey hp with h1 | h1
  · rw [h1]; exact hv
  · exact h p h1

theorem CirclesInv_lookup {l : List (Nat × CircleInfo)} {k : Nat}
    {v : CircleInfo} (h : CirclesInv l) (hv : lookupKey l k = some v) :
    CircleInv v := by
  rcases lookupKey_mem hv with h1 | ⟨k0, h1⟩
  · exact h _ h1
  · exact h _ h1

theorem testBit_setBit {b i bm : Nat} (h : setBit b i = some bm) (j : Nat) :
    bm.testBit j = (b.testBit j || decide (i = j)) := by
  unfold setBit at h
  split at h
  · rw [Option.some_inj] at h
    subst h
    rw [Nat.testBit_lor, Nat.shiftLeft_eq, one_mul]
    by_cases hij : i = j
    · subst hij
      rw [Nat.testBit_two_pow_self]
      simp
    · rw [Nat.testBit_two_pow_of_ne hij]
      simp [hij]
  · exact Option.noConfusion h

theorem setBit_eq (b i : Nat) (h : i < 64) : setBit b i = some (b ||| 1 <<< i) := by
  unfold setBit
  rw [if_pos h]

-- ===== invariant preservation, operation by operation =====

theorem Inv_create {st st1 : State} {creator amount mm token dur bps nft now cid : Nat}
    (h : Inv st)
    (hc : create_circle creator amount mm token dur bps nft now st = some (st1, cid)) :
    Inv st1 := by
  unfold create_circle at hc
  split at hc
  · exact Option.noConfusion hc
  · split at hc
    · exact Option.noConfusion hc
    · split at hc
      · exact Option.noConfusion hc
      · split at hc
        · exact Option.noConfusion hc
        · rename_i hmm hbps deadline hdl
          rw [Option.some_inj, Prod.mk.injEq] at hc
          obtain ⟨hst, _⟩ := hc
          subst hst
          refine CirclesInv_insert h ?_
          unfold CircleInv
          dsimp only
          refine ⟨Nat.zero_le _, by omega, ?_⟩
          intro i hi
          rw [Nat.zero_testBit] at hi
          exact Bool.noConfusion hi

theorem Inv_join {st st1 : State} {user cid tier : Nat}
    (h : Inv st) (hj : join_circle user cid tier st = some st1) : Inv st1 := by
  unfold join_circle at hj
  split at hj
  · exact Option.noConfusion hj
  · rename_i c hc
    split at hj
    · exact Option.noConfusion hj
    · rename_i hfull
      split at hj
      · exact Option.noConfusion hj
      · split at hj
        · exact Option.noConfusion hj
        · rw [Option.some_inj] at hj
          subst hj
          obtain ⟨h1, h2, h3⟩ := CirclesInv_lookup h hc
          refine CirclesInv_insert h ?_
          unfold CircleInv
          dsimp only
          refine ⟨by omega, h2, ?_⟩
          intro i hi
          exact Nat.lt_succ_of_lt (h3 i hi)

theorem Inv_init {st : State} {a : Addr} (h : Inv st) : Inv (init a st) := h

theorem Inv_set_lending_pool {st st1 : State} {a p : Addr}
    (h : Inv st) (hs : set_lending_pool a p st = some st1) : Inv st1 := by
  unfold set_lending_pool at hs
  split at hs
  · exact Option.noConfusion hs
  · split at hs
    · rw [Option.some_inj] at hs
      subst hs
      exact h
    · exact Option.noConfusion hs

theorem Inv_deposit {st st1 : State} {user cid now : Nat}
    (h : Inv st) (hd : deposit user cid now st = some st1) : Inv st1 := by
  unfold deposit at hd
  split at hd
  · exact Option.noConfusion hd
  · rename_i c0 hc0
    split at hd
    · exact Option.noConfusion hd
    · rename_i c hc
      have hcInv : CircleInv c := by
        have h0 := CirclesInv_lookup h hc0
        split at hc
        · split at hc
          · exact Option.noConfusion hc
          · split at hc
            · split at hc
              · exact Option.noConfusion hc
              · rw [Option.some_inj] at hc
                subst hc
                obtain ⟨h1, h2, h3⟩ := h0
                exact ⟨h1, h2, h3⟩
            · rw [Option.some_inj] at hc
              subst hc
              exact h0
        · rw [Option.some_inj] at hc
          subst hc
          exact h0
      split at hd
      · exact Option.noConfusion hd
      · rename_i m hm
        split at hd
        · exact Option.noConfusion hd
        · split at hd
          · exact Option.noConfusion hd
          · rename_i owed howed
            split at hd
            · exact Option.noConfusion hd
            · split at hd
              · exact Option.noConfusion hd
              · split at hd
                · exact Option.noConfusion hd
                · split at hd
                  · exact Option.noConfusion hd
                  · split at hd
                    · exact Option.noConfusion hd
                    · split at hd
                      · exact Option.noConfusion hd
                      · split at hd
                        · exact Option.noConfusion hd
                        · rw [Option.some_inj] at hd
                          subst hd
                          obtain ⟨h1, h2, h3⟩ := hcInv
                          refine CirclesInv_insert h ?_
                          unfold CircleInv
                          dsimp only
                          exact ⟨h1, h2, h3⟩

theorem Inv_deposit_to_yield_pool {st st1 : State} {caller cid amount : Nat}
    (h : Inv st) (hd : deposit_to_yield_pool caller cid amount st = some st1) :
    Inv st1 := by
  unfold deposit_to_yield_pool at hd
  split at hd
  · exact Option.noConfusion hd
  · split at hd
    · exact Option.noConfusion hd
    · rename_i c hc
      split at hd
      · exact Option.noConfusion hd
      · split at hd
        · exact Option.noConfusion hd
        · split at hd
          · exact Option.noConfusion hd
          · split at hd
            · exact Option.noConfusion hd
            · rw [Option.some_inj] at hd
              subst hd
              obtain ⟨h1, h2, h3⟩ := CirclesInv_lookup h hc
              refine CirclesInv_insert h ?_
              unfold CircleInv
              dsimp only
              exact ⟨h1, h2, h3⟩

theorem Inv_prepare_payout_liquidity {st st1 : State} {caller cid : Nat}
    (h : Inv st) (hd : prepare_payout_liquidity caller cid st = some st1) :
    Inv st1 := by
  unfold prepare_payout_liquidity at hd
  split at hd
  · exact Option.noConfusion hd
  · rename_i c hc
    split at hd
    · exact Option.noConfusion hd
    · split at hd
      · exact Option.noConfusion hd
      · split at hd
        · rw [Option.some_inj] at hd
          subst hd
          exact h
        · split at hd
          · exact Option.noConfusion hd
          · rw [Option.some_inj] at hd
            subst hd
            obtain ⟨h1, h2, h3⟩ := CirclesInv_lookup h hc
            refine CirclesInv_insert h ?_
            unfold CircleInv
            dsimp only
            exact ⟨h1, h2, h3⟩

theorem Inv_trigger_insurance {st st1 : State} {caller cid ma : Nat}
    (h : Inv st) (hd : trigger_insurance_coverage caller cid ma st = some st1) :
    Inv st1 := by
  unfold trigger_insurance_coverage at hd
  split at hd
  · exact Option.noConfusion hd
  · rename_i c hc
    split at hd
    · exact Option.noConfusion hd
    · split at hd
      · exact Option.noConfusion hd
      · split at hd
        · exact Option.noConfusion hd
        · split at hd
          · exact Option.noConfusion hd
          · split at hd
            · exact Option.noConfusion hd
            · split at hd
              · exact Option.noConfusion hd
              · split at hd
                · exact Option.noConfusion hd
                · rw [Option.some_inj] at hd
                  subst hd
                  obtain ⟨h1, h2, h3⟩ := CirclesInv_lookup h hc
                  refine CirclesInv_insert h ?_
                  unfold CircleInv
                  dsimp only
                  exact ⟨h1, h2, h3⟩

theorem Inv_propose_penalty {st st1 : State} {user cid bps : Nat}
    (h : Inv st) (hd : propose_penalty_change user cid bps st = some st1) :
    Inv st1 := by
  unfold propose_penalty_change at hd
  split at hd
  · exact Option.noConfusion hd
  · rename_i c hc
    split at hd
    · exact Option.noConfusion hd
    · split at hd
      · exact Option.noConfusion hd
      · split at hd
        · exact Option.noConfusion hd
        · split at hd
          · exact Option.noConfusion hd
          · split at hd
            · exact Option.noConfusion hd
            · rw [Option.some_inj] at hd
              subst hd
              obtain ⟨h1, h2, h3⟩ := CirclesInv_lookup h hc
              refine CirclesInv_insert h ?_
              split
              · unfold CircleInv
                dsimp only
                exact ⟨h1, h2, h3⟩
              · unfold CircleInv
                dsimp only
                exact ⟨h1, h2, h3⟩

theorem Inv_propose_duration {st st1 : State} {user cid dur now : Nat}
    (h : Inv st) (hd : propose_duration_change user cid dur now st = some st1) :
    Inv st1 := by
  unfold propose_duration_change at hd
  split at hd
  · exact Option.noConfusion hd
  · split at hd
    · exact Option.noConfusion hd
    · rename_i c hc
      split at hd
      · exact Option.noConfusion hd
      · split at hd
        · exact Option.noConfusion hd
        · split at hd
          · exact Option.noConfusion hd
          · rw [Option.some_inj] at hd
            subst hd
            obtain ⟨h1, h2, h3⟩ := CirclesInv_lookup h hc
            refine CirclesInv_insert h ?_
            unfold CircleInv
            dsimp only
            exact ⟨h1, h2, h3⟩

theorem Inv_vote_penalty {st st1 : State} {user cid : Nat}
    (h : Inv st) (hd : vote_penalty_change user cid st = some st1) :
    Inv st1 := by
  unfold vote_penalty_change at hd
  split at hd
  · exact Option.noConfusion hd
  · rename_i c hc
    split at hd
    · exact Option.noConfusion hd
    · split at hd
      · exact Option.noConfusion hd
      · split at hd
        · exact Option.noConfusion hd
        · split at hd
          · exact Option.noConfusion hd
          · rw [Option.some_inj] at hd
            subst hd
            obtain ⟨h1, h2, h3⟩ := CirclesInv_lookup h hc
            refine CirclesInv_insert h ?_
            split
            · unfold CircleInv
              dsimp only
              exact ⟨h1, h2, h3⟩
            · unfold CircleInv
              dsimp only
              exact ⟨h1, h2, h3⟩

theorem Inv_eject {st st1 : State} {caller cid ma : Nat}
    (h : Inv st) (hd : eject_member caller cid ma st = some st1) : Inv st1 := by
  unfold eject_member at hd
  split at hd
  · exact Option.noConfusion hd
  · split at hd
    · exact Option.noConfusion hd
    · split at hd
      · exact Option.noConfusion hd
      · split at hd
        · exact Option.noConfusion hd
        · rw [Option.some_inj] at hd
          subst hd
          exact h

theorem Inv_request_exit {st st1 : State} {user cid : Nat}
    (h : Inv st) (hd : request_exit user cid st = some st1) : Inv st1 := by
  unfold request_exit at hd
  split at hd
  · exact Option.noConfusion hd
  · split at hd
    · exact Option.noConfusion hd
    · split at hd
      · exact Option.noConfusion hd
      · rw [Option.some_inj] at hd
        subst hd
        exact h

theorem Inv_fill_vacancy {st st1 : State} {nm cid ex : Nat}
    (h : Inv st) (hd : fill_vacancy nm cid ex st = some st1) : Inv st1 := by
  unfold fill_vacancy at hd
  split at hd
  · exact Option.noConfusion hd
  · split at hd
    · exact Option.noConfusion hd
    · split at hd
      · exact Option.noConfusion hd
      · split at hd
        · exact Option.noConfusion hd
        · split at hd
          · exact Option.noConfusion hd
          · split at hd
            · exact Option.noConfusion hd
            · rw [Option.some_inj] at hd
              subst hd
              exact h

theorem Inv_finalize {st st1 : State} {cid now : Nat}
    (h : Inv st) (hd : execute_finalize_round cid now st = some st1) :
    Inv st1 := by
  unfold execute_finalize_round at hd
  split at hd
  · exact Option.noConfusion hd
  · rename_i c hc
    split at hd
    · exact Option.noConfusion hd
    · split at hd
      · exact Option.noConfusion hd
      · split at hd
        · exact Option.noConfusion hd
        · split at hd
          · exact Option.noConfusion hd
          · split at hd
            · exact Option.noConfusion hd
            · rename_i hnotFin hlt64 hbm sched hsched hidx
              split at hd
              · exact Option.noConfusion hd
              · rename_i recipient hrecip
                split at hd
                · exact Option.noConfusion hd
                · split at hd
                  · exact Option.noConfusion hd
                  · rename_i hmm0 pb hpb
                    rw [Option.some_inj] at hd
                    subst hd
                    obtain ⟨h1, h2, h3⟩ := CirclesInv_lookup h hc
                    refine CirclesInv_insert h ?_
                    unfold CircleInv
                    dsimp only
                    refine ⟨h1, h2, ?_⟩
                    intro i hi
                    rw [testBit_setBit hpb i] at hi
                    rcases Bool.or_eq_true_iff.mp hi with h4 | h4
                    · exact h3 i h4
                    · have := of_decide_eq_true h4
                      omega

theorem Inv_executeRecovery {st st1 : State} {cid : Nat} {c : CircleInfo}
    {oldA newA votes : Nat}
    (h : Inv st) (hcInv : CircleInv c)
    (hd : executeRecovery cid c oldA newA votes st = some st1) : Inv st1 := by
  unfold executeRecovery at hd
  obtain ⟨h1, h2, h3⟩ := hcInv
  split at hd
  · split at hd
    · exact Option.noConfusion hd
    · rw [Option.some_inj] at hd
      subst hd
      refine CirclesInv_insert h ?_
      unfold CircleInv
      dsimp only
      exact ⟨h1, h2, h3⟩
  · rw [Option.some_inj] at hd
    subst hd
    refine CirclesInv_insert h ?_
    unfold CircleInv
    dsimp only
    exact ⟨h1, h2, h3⟩

theorem Inv_propose_recovery {st st1 : State} {user cid oldA newA : Nat}
    (h : Inv st) (hd : propose_address_change user cid oldA newA st = some st1) :
    Inv st1 := by
  unfold propose_address_change at hd
  split at hd
  · exact Option.noConfusion hd
  · split at hd
    · exact Option.noConfusion hd
    · rename_i c hc
      split at hd
      · exact Option.noConfusion hd
      · split at hd
        · exact Option.noConfusion hd
        · split at hd
          · exact Option.noConfusion hd
          · split at hd
            · exact Option.noConfusion hd
            · split at hd
              · exact Option.noConfusion hd
              · split at hd
                · exact Option.noConfusion hd
                · exact Inv_executeRecovery h (CirclesInv_lookup h hc) hd

theorem Inv_vote_recovery {st st1 : State} {user cid : Nat}
    (h : Inv st) (hd : vote_for_recovery user cid st = some st1) : Inv st1 := by
  unfold vote_for_recovery at hd
  split at hd
  · exact Option.noConfusion hd
  · rename_i c hc
    split at hd
    · rename_i oldA newA h1 h2
      split at hd
      · exact Option.noConfusion hd
      · split at hd
        · exact Option.noConfusion hd
        · split at hd
          · exact Option.noConfusion hd
          · exact Inv_executeRecovery h (CirclesInv_lookup h hc) hd
    · exact Option.noConfusion hd

/-- Every reachable store satisfies the invariant. -/
theorem Inv_reachable {st : State} (h : Reachable st) : Inv st := by
  induction h with
  | empty => intro p hp; exact absurd hp (List.not_mem_nil p)
  | initStep _ ih => exact Inv_init ih
  | poolStep _ he ih => exact Inv_set_lending_pool ih he
  | createStep _ he ih => exact Inv_create ih he
  | joinStep _ he ih => exact Inv_join ih he
  | depositStep _ he ih => exact Inv_deposit ih he
  | yieldStep _ he ih => exact Inv_deposit_to_yield_pool ih he
  | liquidityStep _ he ih => exact Inv_prepare_payout_liquidity ih he
  | insuranceStep _ he ih => exact Inv_trigger_insurance ih he
  | proposePenaltyStep _ he ih => exact Inv_propose_penalty ih he
  | proposeDurationStep _ he ih => exact Inv_propose_duration ih he
  | votePenaltyStep _ he ih => exact Inv_vote_penalty ih he
  | ejectStep _ he ih => exact Inv_eject ih he
  | exitStep _ he ih => exact Inv_request_exit ih he
  | vacancyStep _ he ih => exact Inv_fill_vacancy ih he
  | finalizeStep _ he ih => exact Inv_finalize ih he
  | proposeRecoveryStep _ he ih => exact Inv_propose_recovery ih he
  | voteRecoveryStep _ he ih => exact Inv_vote_recovery ih he

theorem lookupKey_removeKey_ne {α β : Type} [DecidableEq α]
    (l : List (α × β)) (k k1 : α) (h : k ≠ k1) :
    lookupKey (removeKey l k) k1 = lookupKey l k1 := by
  induction l with
  | nil => rfl
  | cons p rest ih =>
    obtain ⟨k0, v0⟩ := p
    by_cases h0 : k0 = k
    · subst h0
      simp [removeKey, lookupKey, h]
    · simp [removeKey, h0, lookupKey, ih]

theorem insuranceFee_eq {owed bps : Nat} (howed : owed < U64)
    (hbps : bps ≤ 10000) : insuranceFee owed bps = owed * bps / 10000 := by
  unfold insuranceFee
  apply Nat.mod_eq_of_lt
  have h1 : owed * bps / 10000 ≤ owed * 10000 / 10000 :=
    Nat.div_le_div_right (Nat.mul_le_mul_left _ hbps)
  have h2 : owed * 10000 / 10000 = owed := by
    rw [Nat.mul_div_cancel]
    omega
  omega

-- ===== claim theorems =====

/-- C10: `Member` records live under `DataKey::Member(identity)` — the
key carries no circle id — so an identity holding any `Member` record is
rejected by `join_circle` for every circle id (not only the circle that
created the record), and `fill_vacancy` likewise rejects it as a
replacement anywhere; hence one identity can hold a membership slot in
at most one circle at a time across the whole registry. -/
theorem C10_member_key_is_global (st : State) (user cid tier : Nat)
    (m : Member) (hm : lookupKey st.members user = some m) :
    join_circle user cid tier st = none ∧
    ∀ ex, fill_vacancy user cid ex st = none := by
  constructor
  · cases hc : lookupKey st.circles cid with
    | none => simp [join_circle, hc]
    | some c => simp [join_circle, hc, hm]
  · intro ex
    cases hc : lookupKey st.circles cid with
    | none => simp [fill_vacancy, hc]
    | some c =>
      cases hp : lookupKey st.pendingExits (cid, ex) with
      | none => simp [fill_vacancy, hc, hp]
      | some b =>
        cases hex : lookupKey st.members ex with
        | none => simp [fill_vacancy, hc, hp, hex]
        | some em =>
          by_cases hst : em.status = MemberStatus.AwaitingReplacement
          · simp [fill_vacancy, hc, hp, hex, hst, hm]
          · simp [fill_vacancy, hc, hp, hex, hst]

/-- C10 witness: identity `10` joined circle `1`; in the two-circle store
`s9A` it is barred from joining circle `2` and from filling a vacancy in
circle `2`. -/
theorem C10_witness :
    (∃ m, lookupKey s9A.members 10 = some m) ∧
    join_circle 10 2 1 s9A = none ∧
    fill_vacancy 10 2 11 s9A = none := by
  refine ⟨⟨_, rfl⟩, ?_, ?_⟩
  · exact (C10_member_key_is_global s9A 10 2 1 _ rfl).1
  · exact (C10_member_key_is_global s9A 10 2 1 _ rfl).2 11

/-- C1: the claim states that a second `deposit` by the same member in
the same round must fail once the member's contribution bit is set.  The
code has no such check (the `DataKey::Deposit` tracking key is declared
but never consulted): evaluating the code on a circle where member `10`
(index 0) has already deposited this round, a second `deposit` in the
same round succeeds again — it transfers `owed + fee` a second time,
increments `contribution_count` to 2 and leaves the already-set bit
unchanged, so the spec's idempotence property is violated by the code. -/
theorem C1_second_deposit_accepted :
    deposit 10 1 5 sC = some sD ∧
    (lookupKey sD.circles 1).map (fun c => c.contribution_bitmap.testBit 0) =
      some true ∧
    (lookupKey sD.members 10).map (fun m => m.status) =
      some MemberStatus.Active ∧
    deposit 10 1 6 sD = some sE ∧
    sE.transfers =
      [Transfer.mk 10 contractAddress 1000, Transfer.mk 10 contractAddress 1000] ∧
    (lookupKey sE.members 10).map (fun m => m.contribution_count) = some 2 ∧
    (lookupKey sE.circles 1).map (fun c => c.contribution_bitmap) = some 1 :=
  ⟨rfl, rfl, rfl, rfl, rfl, rfl, rfl⟩

/-- C7: the claim states that the first deposit at or after the effective
time `T + 72h` replaces `cycle_duration` with the pending value and
clears the pending fields.  Evaluating the code: after a duration change
proposed at `T = 0` (pending 2592000, effective at 259200), a deposit at
`t = 259199` uses the old duration (as the claim says), but a deposit at
exactly the effective time `t = 259200` still computes the deadline with
the OLD duration 604800 and leaves the pending fields in place — the
adoption branch exists only as stray non-compiling lines inside
`prepare_payout_liquidity`, never in `deposit`, contradicting the claim
and the repository's own test
`test_duration_change_activates_after_notice`. -/
theorem C7_duration_not_adopted_by_deposit :
    (lookupKey s7A.circles 1).map
        (fun c => (c.cycle_duration, c.pending_cycle_duration,
                   c.duration_change_effective_at)) =
      some (604800, 2592000, 259200) ∧
    deposit 10 1 259199 s7A = some s7C ∧
    (lookupKey s7C.circles 1).map
        (fun c => (c.cycle_duration, c.deadline_timestamp)) =
      some (604800, 259199 + 604800) ∧
    deposit 10 1 259200 s7A = some s7B ∧
    (lookupKey s7B.circles 1).map
        (fun c => (c.cycle_duration, c.pending_cycle_duration,
                   c.duration_change_effective_at, c.deadline_timestamp)) =
      some (604800, 2592000, 259200, 259200 + 604800) :=
  ⟨rfl, rfl, rfl, rfl, rfl⟩

/-- C9, counterexample: the claim asserts that in every reachable state
`contribution_bitmap` has no bit at an index at or above `member_count`.
Reachable violation: identity `11` joins circle `1` (receiving index 1),
the creator opens circle `2`, and `11` — whose `Member` record is keyed
by identity alone, with no circle binding — deposits into circle `2`,
setting bit 1 of the empty circle's `contribution_bitmap` while its
`member_count` is 0. -/
theorem C9_contribution_bit_above_count :
    Reachable s9B ∧
    (lookupKey s9B.circles 2).map
        (fun c => (c.contribution_bitmap.testBit 1, c.member_count)) =
      some (true, 0) := by
  have h0 : Reachable s0 := Reachable.initStep Reachable.empty
  have h1 : Reachable sA :=
    Reachable.createStep h0
      (show create_circle 1 1000 2 50 604800 0 60 0 s0 = some (sA, 1) from rfl)
  have h2 : Reachable sB :=
    Reachable.joinStep h1 (show join_circle 10 1 1 sA = some sB from rfl)
  have h3 : Reachable sC :=
    Reachable.joinStep h2 (show join_circle 11 1 1 sB = some sC from rfl)
  have h4 : Reachable s9A :=
    Reachable.createStep h3
      (show create_circle 1 500 2 50 604800 0 60 0 sC = some (s9A, 2) from rfl)
  have h5 : Reachable s9B :=
    Reachable.depositStep h4 (show deposit 11 2 0 s9A = some s9B from rfl)
  exact ⟨h5, rfl⟩

/-- C3, counterexample: the claim asserts a 5% late-fee discount for a
depositor who has referred a joined member (base fee 1000 must become
950).  The code's `deposit` computes the late fee from the state alone,
which carries no referral data at all, and adds the full base fee for
every depositor: in a circle with a base late fee of exactly 1000 (owed
100000 at the default 100 bps), a late deposit credits the reserve with
1000, not the 950 the claim requires for a referrer — no input to
`deposit` can produce the discounted amount. -/
theorem C3_no_referral_discount :
    (lookupKey s3A.circles 1).map (fun c => c.deadline_timestamp) =
      some 604800 ∧
    s3A.groupReserve = some 0 ∧
    deposit 10 1 700000 s3A = some s3B ∧
    s3B.groupReserve = some 1000 ∧
    (1000 : Nat) ≠ 950 :=
  ⟨rfl, rfl, rfl, rfl, by decide⟩

/-- C4, counterexample: the claim asserts `trigger_insurance_coverage`
fails whenever the insurance balance is below the member's owed amount
`contribution_amount × tier_multiplier` and otherwise debits that owed
amount and records the round contribution.  With a tier-2 member
(owed 2000) and an insurance balance of 1500 the call must fail by the
claim, but the code checks and debits only the base `contribution_amount`
1000: the call succeeds, leaves a balance of 500, and records no
per-round contribution. -/
theorem C4_insurance_ignores_tier :
    c4circle.insurance_balance = 1500 ∧
    c4circle.contribution_amount * c4member.tier_multiplier = 2000 ∧
    c4circle.insurance_balance <
      c4circle.contribution_amount * c4member.tier_multiplier ∧
    (trigger_insurance_coverage 1 1 11 c4state).map
        (fun s => ((lookupKey s.circles 1).map (fun c => c.insurance_balance),
                   s.roundContributions)) =
      some (some 500, []) :=
  ⟨rfl, rfl, by decide, rfl⟩

/-- C8: a successful `fill_vacancy` requires the exiting member to be in
AwaitingReplacement state, and the refund paid to the exiting identity is
exactly `contribution_count × contribution_amount` — principal only,
computed from nothing else (insurance and late fees paid never enter the
formula) — with the value-transfer performed exactly when the refund is
positive. -/
theorem C8_vacancy_refund_principal_only (st : State) (nm cid ex : Nat)
    (c : CircleInfo) (em : Member) (st1 : State)
    (hc : lookupKey st.circles cid = some c)
    (hem : lookupKey st.members ex = some em)
    (hd : fill_vacancy nm cid ex st = some st1) :
    em.status = MemberStatus.AwaitingReplacement ∧
    (em.contribution_count * c.contribution_amount > 0 →
      st1.transfers =
        Transfer.mk contractAddress ex
            (em.contribution_count * c.contribution_amount) :: st.transfers) ∧
    (em.contribution_count * c.contribution_amount = 0 →
      st1.transfers = st.transfers) := by
  unfold fill_vacancy at hd
  split at hd
  · exact Option.noConfusion hd
  · rename_i c0 hc0
    rw [hc0, Option.some_inj] at hc
    subst hc
    split at hd
    · exact Option.noConfusion hd
    · split at hd
      · exact Option.noConfusion hd
      · rename_i em0 hem0
        rw [hem0, Option.some_inj] at hem
        subst hem
        split at hd
        · exact Option.noConfusion hd
        · rename_i hstat
          split at hd
          · exact Option.noConfusion hd
          · split at hd
            · exact Option.noConfusion hd
            · rename_i refund hrefund
              unfold chkMulU64 at hrefund
              split at hrefund
              · rw [Option.some_inj] at hrefund
                subst hrefund
                rw [Option.some_inj] at hd
                subst hd
                refine ⟨not_not.mp hstat, ?_, ?_⟩
                · intro hpos
                  simp only
                  rw [if_pos hpos]
                · intro hzero
                  simp only
                  rw [if_neg (by omega)]
              · exact Option.noConfusion hrefund

/-- C8 witness: exiting member `11` with `contribution_count = 3` in a
circle with `contribution_amount = 500` is refunded exactly 1500 from the
contract when identity `20` fills the vacancy. -/
theorem C8_witness :
    lookupKey c8state.circles 1 = some c8circle ∧
    lookupKey c8state.members 11 = some c8member ∧
    c8member.contribution_count * c8circle.contribution_amount = 1500 ∧
    ∃ st1, fill_vacancy 20 1 11 c8state = some st1 ∧
      (c8member.contribution_count * c8circle.contribution_amount > 0 →
        st1.transfers =
          Transfer.mk contractAddress 11
              (c8member.contribution_count * c8circle.contribution_amount)
            :: c8state.transfers) := by
  refine ⟨rfl, rfl, by decide, _, rfl, ?_⟩
  exact (C8_vacancy_refund_principal_only c8state 20 1 11 c8circle c8member _
    rfl rfl rfl).2.1

/-- C4, amended: `trigger_insurance_coverage` checks and debits the base
`contribution_amount`, not the tier-scaled owed amount: it fails whenever
the insurance balance is below `contribution_amount`, and on success it
debits exactly `contribution_amount` from the insurance balance, marks
the member's contribution bit and marks insurance used for the round; the
member's round contribution amount is not recorded. -/
theorem C4_amended_base_amount (st : State) (caller cid ma : Nat)
    (c : CircleInfo) (hc : lookupKey st.circles cid = some c) :
    (c.insurance_balance < c.contribution_amount →
      trigger_insurance_coverage caller cid ma st = none) ∧
    (∀ st1 m, lookupKey st.members ma = some m →
      trigger_insurance_coverage caller cid ma st = some st1 →
      (lookupKey st1.circles cid).map
          (fun x => (x.insurance_balance, x.is_insurance_used,
                     x.contribution_bitmap.testBit m.index)) =
        some (c.insurance_balance - c.contribution_amount, true, true) ∧
      st1.roundContributions = st.roundContributions) := by
  constructor
  · intro hlt
    simp [trigger_insurance_coverage, hc, hlt]
  · intro st1 m hm htr
    unfold trigger_insurance_coverage at htr
    split at htr
    · exact Option.noConfusion htr
    · rename_i c0 hc0
      rw [hc0, Option.some_inj] at hc
      subst hc
      split at htr
      · exact Option.noConfusion htr
      · split at htr
        · exact Option.noConfusion htr
        · split at htr
          · exact Option.noConfusion htr
          · split at htr
            · exact Option.noConfusion htr
            · rename_i m0 hm0
              rw [hm0, Option.some_inj] at hm
              subst hm
              split at htr
              · exact Option.noConfusion htr
              · split at htr
                · exact Option.noConfusion htr
                · split at htr
                  · exact Option.noConfusion htr
                  · rename_i hbit bm hbm
                    rw [Option.some_inj] at htr
                    subst htr
                    constructor
                    · simp [lookupKey_insertKey_self, testBit_setBit hbm]
                    · rfl

/-- C4 witness: a successful insurance trigger on the tier-2 member of
`c4state` debits the base amount 1000 (1500 → 500), marks bit 1 and the
insurance-used flag, and records no round contribution. -/
theorem C4_witness :
    lookupKey c4state.circles 1 = some c4circle ∧
    c4state.roundContributions = [] ∧
    lookupKey c4state.members 11 = some c4member ∧
    ∃ st1, trigger_insurance_coverage 1 1 11 c4state = some st1 ∧
      (lookupKey st1.circles 1).map
          (fun x => (x.insurance_balance, x.is_insurance_used,
                     x.contribution_bitmap.testBit c4member.index)) =
        some (c4circle.insurance_balance - c4circle.contribution_amount,
              true, true) ∧
      st1.roundContributions = c4state.roundContributions := by
  refine ⟨rfl, rfl, rfl, _, rfl, ?_⟩
  exact (C4_amended_base_amount c4state 1 1 11 c4circle rfl).2 _ c4member rfl rfl

/-- What a successful `deposit` does to the transfer log, the insurance
balance and the group reserve, in terms of the pre-state circle and
member records. -/
theorem deposit_success_effects (st : State) (user cid now : Nat)
    (c : CircleInfo) (m : Member) (st1 : State)
    (hc : lookupKey st.circles cid = some c)
    (hm : lookupKey st.members user = some m)
    (hd : deposit user cid now st = some st1) :
    c.contribution_amount * m.tier_multiplier < U64 ∧
    st1.transfers =
      Transfer.mk user contractAddress
          (c.contribution_amount * m.tier_multiplier +
            insuranceFee (c.contribution_amount * m.tier_multiplier)
              c.insurance_fee_bps)
        :: st.transfers ∧
    (lookupKey st1.circles cid).map (fun x => x.insurance_balance) =
      some (c.insurance_balance +
        insuranceFee (c.contribution_amount * m.tier_multiplier)
          c.insurance_fee_bps) ∧
    (now > c.deadline_timestamp →
      st1.groupReserve = some (st.groupReserve.getD 0 +
        c.contribution_amount * m.tier_multiplier * c.late_fee_bps / 10000)) ∧
    (¬ now > c.deadline_timestamp → st1.groupReserve = st.groupReserve) := by
  unfold deposit at hd
  split at hd
  · exact Option.noConfusion hd
  · rename_i c0 hc0
    rw [hc0, Option.some_inj] at hc
    subst hc
    split at hd
    · exact Option.noConfusion hd
    · rename_i cY hcY
      have hcY2 : cY = c0 ∨ cY = { c0 with yield_deposited := 0 } := by
        split at hcY
        · split at hcY
          · exact Option.noConfusion hcY
          · split at hcY
            · split at hcY
              · exact Option.noConfusion hcY
              · right
                rw [Option.some_inj] at hcY
                exact hcY.symm
            · left
              rw [Option.some_inj] at hcY
              exact hcY.symm
        · left
          rw [Option.some_inj] at hcY
          exact hcY.symm
      have hCA : cY.contribution_amount = c0.contribution_amount := by
        rcases hcY2 with h | h <;> rw [h]
      have hBPS : cY.insurance_fee_bps = c0.insurance_fee_bps := by
        rcases hcY2 with h | h <;> rw [h]
      have hBAL : cY.insurance_balance = c0.insurance_balance := by
        rcases hcY2 with h | h <;> rw [h]
      have hDL : cY.deadline_timestamp = c0.deadline_timestamp := by
        rcases hcY2 with h | h <;> rw [h]
      have hLF : cY.late_fee_bps = c0.late_fee_bps := by
        rcases hcY2 with h | h <;> rw [h]
      split at hd
      · exact Option.noConfusion hd
      · rename_i m0 hm0
        rw [hm0, Option.some_inj] at hm
        subst hm
        split at hd
        · exact Option.noConfusion hd
        · rename_i hstat
          split at hd
          · exact Option.noConfusion hd
          · rename_i owed howed
            unfold chkMulU64 at howed
            split at howed
            · rename_i howedlt
              rw [Option.some_inj] at howed
              subst howed
              split at hd
              · exact Option.noConfusion hd
              · rename_i reserveAfter hres
                split at hd
                · exact Option.noConfusion hd
                · rename_i total htotal
                  unfold chkAddU64 at htotal
                  split at htotal
                  · rw [Option.some_inj] at htotal
                    subst htotal
                    split at hd
                    · exact Option.noConfusion hd
                    · rename_i insBal hins
                      have hins2 : insBal = cY.insurance_balance +
                          insuranceFee (cY.contribution_amount * m0.tier_multiplier)
                            cY.insurance_fee_bps := by
                        split at hins
                        · unfold chkAddU64 at hins
                          split at hins
                          · rw [Option.some_inj] at hins
                            exact hins.symm
                          · exact Option.noConfusion hins
                        · rename_i hfee0
                          rw [Option.some_inj] at hins
                          omega
                      split at hd
                      · exact Option.noConfusion hd
                      · split at hd
                        · exact Option.noConfusion hd
                        · split at hd
                          · exact Option.noConfusion hd
                          · split at hd
                            · exact Option.noConfusion hd
                            · rw [Option.some_inj] at hd
                              subst hd
                              refine ⟨?_, ?_, ?_, ?_, ?_⟩
                              · rw [hCA] at howedlt
                                exact howedlt
                              · simp only [hCA, hBPS]
                              · simp only [lookupKey_insertKey_self]
                                rw [hins2, hCA, hBPS, hBAL]
                                rfl
                              · intro hlate
                                rw [hDL] at hres
                                rw [if_pos hlate] at hres
                                split at hres
                                · exact Option.noConfusion hres
                                · rename_i p hp
                                  unfold chkMulU64 at hp
                                  split at hp
                                  · rw [Option.some_inj] at hp
                                    subst hp
                                    split at hres
                                    · exact Option.noConfusion hres
                                    · rename_i r hr
                                      unfold chkAddU64 at hr
                                      split at hr
                                      · rw [Option.some_inj] at hr
                                        subst hr
                                        rw [Option.some_inj] at hres
                                        subst hres
                                        simp only [hCA, hLF]
                                      · exact Option.noConfusion hr
                                  · exact Option.noConfusion hp
                              · intro hontime
                                rw [hDL] at hres
                                rw [if_neg hontime] at hres
                                rw [Option.some_inj] at hres
                                subst hres
                                rfl
                  · exact Option.noConfusion htotal
            · exact Option.noConfusion howed

/-- C2: for every successful deposit, the amount pulled from the
depositor is exactly `owed + insurance fee` with
`owed = contribution_amount × tier_multiplier` and
`insurance fee = owed × insurance_fee_bps / 10000` (integer division);
the insurance fee is credited to the circle's insurance balance, and the
late fee never enters the transferred amount — it only moves the group
reserve (by the base fee when late, by nothing otherwise). -/
theorem C2_deposit_transfer_amount (st : State) (user cid now : Nat)
    (c : CircleInfo) (m : Member) (st1 : State)
    (hc : lookupKey st.circles cid = some c)
    (hm : lookupKey st.members user = some m)
    (hbps : c.insurance_fee_bps ≤ 10000)
    (hd : deposit user cid now st = some st1) :
    st1.transfers =
      Transfer.mk user contractAddress
          (c.contribution_amount * m.tier_multiplier +
            c.contribution_amount * m.tier_multiplier * c.insurance_fee_bps / 10000)
        :: st.transfers ∧
    (lookupKey st1.circles cid).map (fun x => x.insurance_balance) =
      some (c.insurance_balance +
        c.contribution_amount * m.tier_multiplier * c.insurance_fee_bps / 10000) ∧
    st1.groupReserve.getD 0 = st.groupReserve.getD 0 +
      (if now > c.deadline_timestamp then
        c.contribution_amount * m.tier_multiplier * c.late_fee_bps / 10000
       else 0) := by
  obtain ⟨hlt, htr, hbal, hlatecase, hontimecase⟩ :=
    deposit_success_effects st user cid now c m st1 hc hm hd
  rw [insuranceFee_eq hlt hbps] at htr hbal
  refine ⟨htr, hbal, ?_⟩
  by_cases hl : now > c.deadline_timestamp
  · rw [if_pos hl, hlatecase hl]
    rfl
  · rw [if_neg hl, hontimecase hl]
    omega

/-- C2 witness: in the 10%-insurance circle of `s2A` (owed 1000, fee
100), the on-time deposit pulls exactly 1100 and credits 100 to the
insurance balance, with no reserve movement. -/
theorem C2_witness :
    lookupKey s2A.circles 1 = some c2A ∧
    lookupKey s2A.members 10 = some m2A ∧
    c2A.insurance_fee_bps ≤ 10000 ∧
    deposit 10 1 5 s2A = some s2B ∧
    c2A.contribution_amount * m2A.tier_multiplier +
      c2A.contribution_amount * m2A.tier_multiplier * c2A.insurance_fee_bps / 10000
      = 1100 ∧
    s2B.transfers =
      Transfer.mk 10 contractAddress
          (c2A.contribution_amount * m2A.tier_multiplier +
            c2A.contribution_amount * m2A.tier_multiplier *
              c2A.insurance_fee_bps / 10000)
        :: s2A.transfers ∧
    (lookupKey s2B.circles 1).map (fun x => x.insurance_balance) =
      some (c2A.insurance_balance +
        c2A.contribution_amount * m2A.tier_multiplier *
          c2A.insurance_fee_bps / 10000) := by
  refine ⟨rfl, rfl, by decide, rfl, by decide, ?_, ?_⟩
  · exact (C2_deposit_transfer_amount s2A 10 1 5 c2A m2A s2B rfl rfl
      (by decide) rfl).1
  · exact (C2_deposit_transfer_amount s2A 10 1 5 c2A m2A s2B rfl rfl
      (by decide) rfl).2.1

/-- C3, amended: for every deposit made strictly after the deadline by
any depositor, the late fee added to the group reserve is the full base
fee `owed × late_fee_bps / 10000` — the code keeps no referral data and
implements no referral discount, so no depositor (referrer or not) ever
receives the flat 5% reduction the claim describes. -/
theorem C3_amended_full_late_fee (st : State) (user cid now : Nat)
    (c : CircleInfo) (m : Member) (st1 : State)
    (hc : lookupKey st.circles cid = some c)
    (hm : lookupKey st.members user = some m)
    (hlate : now > c.deadline_timestamp)
    (hd : deposit user cid now st = some st1) :
    st1.groupReserve = some (st.groupReserve.getD 0 +
      c.contribution_amount * m.tier_multiplier * c.late_fee_bps / 10000) :=
  (deposit_success_effects st user cid now c m st1 hc hm hd).2.2.2.1 hlate

/-- C3 witness: the late deposit of `s3A` (owed 100000, default 100 bps)
adds the full base fee 1000 to the empty reserve. -/
theorem C3_witness :
    lookupKey s3A.circles 1 = some c3A ∧
    lookupKey s3A.members 10 = some m3A ∧
    700000 > c3A.deadline_timestamp ∧
    deposit 10 1 700000 s3A = some s3B ∧
    c3A.contribution_amount * m3A.tier_multiplier * c3A.late_fee_bps / 10000
      = 1000 ∧
    s3B.groupReserve = some (s3A.groupReserve.getD 0 +
      c3A.contribution_amount * m3A.tier_multiplier * c3A.late_fee_bps / 10000) := by
  refine ⟨rfl, rfl, by decide, rfl, by decide, ?_⟩
  exact C3_amended_full_late_fee s3A 10 1 700000 c3A m3A s3B rfl rfl
    (by decide) rfl

/-- C6: late-fee governance.  Each Active member votes by OR-ing its own
index bit into `proposal_votes_bitmap`, so `countOnes` of the bitmap is
the number of distinct members that have voted; the code commits exactly
when `count_ones > member_count / 2`, which for naturals is the claim's
"strictly more than N/2" (`2 × votes > N`).  Voting requires an active
proposal (`proposed_late_fee_bps ≠ 0`); proposing auto-votes the
proposer's own bit (its vote counts towards the majority) after resetting
the bitmap. -/
theorem C6_penalty_majority (st : State) (user cid : Nat)
    (c : CircleInfo) (m : Member)
    (hc : lookupKey st.circles cid = some c)
    (hm : lookupKey st.members user = some m)
    (hstat : m.status = MemberStatus.Active)
    (hact : m.is_active = true)
    (hidx : m.index < 64) :
    (c.proposed_late_fee_bps = 0 → vote_penalty_change user cid st = none) ∧
    (c.proposed_late_fee_bps ≠ 0 →
      ∃ c1, vote_penalty_change user cid st =
          some { st with circles := insertKey st.circles cid c1 } ∧
        (2 * countOnes (c.proposal_votes_bitmap ||| 1 <<< m.index) >
            c.member_count →
          c1.late_fee_bps = c.proposed_late_fee_bps ∧
          c1.proposed_late_fee_bps = 0 ∧ c1.proposal_votes_bitmap = 0) ∧
        (¬ 2 * countOnes (c.proposal_votes_bitmap ||| 1 <<< m.index) >
            c.member_count →
          c1.late_fee_bps = c.late_fee_bps ∧
          c1.proposed_late_fee_bps = c.proposed_late_fee_bps ∧
          c1.proposal_votes_bitmap = c.proposal_votes_bitmap ||| 1 <<< m.index)) ∧
    (∀ new_bps, new_bps ≤ 10000 →
      ∃ c1, propose_penalty_change user cid new_bps st =
          some { st with circles := insertKey st.circles cid c1 } ∧
        (2 * countOnes ((0 : Nat) ||| 1 <<< m.index) > c.member_count →
          c1.late_fee_bps = new_bps ∧
          c1.proposed_late_fee_bps = 0 ∧ c1.proposal_votes_bitmap = 0) ∧
        (¬ 2 * countOnes ((0 : Nat) ||| 1 <<< m.index) > c.member_count →
          c1.late_fee_bps = c.late_fee_bps ∧
          c1.proposed_late_fee_bps = new_bps ∧
          c1.proposal_votes_bitmap = (0 : Nat) ||| 1 <<< m.index)) := by
  refine ⟨?_, ?_, ?_⟩
  · intro h0
    simp only [vote_penalty_change, hc, hm]
    rw [if_neg (not_not_intro hstat), if_pos h0]
  · intro hne
    by_cases hcommit :
        countOnes (c.proposal_votes_bitmap ||| 1 <<< m.index) >
          c.member_count / 2
    · refine ⟨{ c with late_fee_bps := c.proposed_late_fee_bps,
                       proposed_late_fee_bps := 0,
                       proposal_votes_bitmap := 0 }, ?_, ?_, ?_⟩
      · simp only [vote_penalty_change, hc, hm,
          setBit_eq c.proposal_votes_bitmap m.index hidx]
        rw [if_neg (not_not_intro hstat), if_neg hne, if_pos hcommit]
      · intro _
        exact ⟨rfl, rfl, rfl⟩
      · intro hno
        exfalso
        omega
    · refine ⟨{ c with proposal_votes_bitmap :=
                  c.proposal_votes_bitmap ||| 1 <<< m.index }, ?_, ?_, ?_⟩
      · simp only [vote_penalty_change, hc, hm,
          setBit_eq c.proposal_votes_bitmap m.index hidx]
        rw [if_neg (not_not_intro hstat), if_neg hne, if_neg hcommit]
      · intro hyes
        exfalso
        omega
      · intro _
        exact ⟨rfl, rfl, rfl⟩
  · intro new_bps hle
    by_cases hcommit :
        countOnes ((0 : Nat) ||| 1 <<< m.index) > c.member_count / 2
    · refine ⟨{ c with late_fee_bps := new_bps,
                       proposed_late_fee_bps := 0,
                       proposal_votes_bitmap := 0 }, ?_, ?_, ?_⟩
      · simp only [propose_penalty_change, hc, hm,
          setBit_eq 0 m.index hidx]
        rw [if_neg (by rw [hact]; exact not_not_intro rfl),
          if_neg (not_not_intro hstat), if_neg (by omega), if_pos hcommit]
      · intro _
        exact ⟨rfl, rfl, rfl⟩
      · intro hno
        exfalso
        omega
    · refine ⟨{ c with proposed_late_fee_bps := new_bps,
                       proposal_votes_bitmap := (0 : Nat) ||| 1 <<< m.index },
          ?_, ?_, ?_⟩
      · simp only [propose_penalty_change, hc, hm,
          setBit_eq 0 m.index hidx]
        rw [if_neg (by rw [hact]; exact not_not_intro rfl),
          if_neg (not_not_intro hstat), if_neg (by omega), if_neg hcommit]
      · intro hyes
        exfalso
        omega
      · intro _
        exact ⟨rfl, rfl, rfl⟩

/-- C6 witness: in the N = 3 circle, member `10`'s proposal of 500 bps
leaves the proposal pending with its auto-vote (1 of 3); member `11`'s
vote is the second distinct vote, `2 × 2 > 3` crosses the strict
majority, and the rate commits. -/
theorem C6_witness :
    lookupKey s6B.circles 1 = some c6B ∧
    lookupKey s6B.members 11 = some m6B ∧
    m6B.status = MemberStatus.Active ∧
    m6B.is_active = true ∧
    m6B.index < 64 ∧
    c6B.member_count = 3 ∧
    c6B.late_fee_bps = 100 ∧
    c6B.proposed_late_fee_bps = 500 ∧
    c6B.proposal_votes_bitmap = 1 ∧
    countOnes (c6B.proposal_votes_bitmap ||| 1 <<< m6B.index) = 2 ∧
    ∃ c1, vote_penalty_change 11 1 s6B =
        some { s6B with circles := insertKey s6B.circles 1 c1 } ∧
      (2 * countOnes (c6B.proposal_votes_bitmap ||| 1 <<< m6B.index) >
          c6B.member_count →
        c1.late_fee_bps = c6B.proposed_late_fee_bps ∧
        c1.proposed_late_fee_bps = 0 ∧ c1.proposal_votes_bitmap = 0) := by
  refine ⟨rfl, rfl, by decide, by decide, by decide, by decide, by decide,
    by decide, by decide, by decide, ?_⟩
  obtain ⟨c1, heq, hcommit, hrest⟩ :=
    (C6_penalty_majority s6B 11 1 c6B m6B rfl rfl (by decide) (by decide)
      (by decide)).2.1 (by decide)
  exact ⟨c1, heq, hcommit⟩

/-- C5: social recovery (modelled from the spec, absent from
src/src/lib.rs).  A recovery vote by an Active member ORs the voter's
index bit in; the proposal executes exactly when
`votes × 100 > active_member_count × 70`, counting only currently-Active
members in the denominator.  On execution the `Member` record is moved to
the new identity key — only its `address` field changes, so the index is
preserved — the old key is removed, the member-address list entry at the
old member's index is rewritten to the new identity, and the proposal is
cleared; short of the threshold only the vote bitmap grows. -/
theorem C5_social_recovery (st : State) (user cid : Nat) (c : CircleInfo)
    (oldA newA : Addr) (voter om : Member)
    (hc : lookupKey st.circles cid = some c)
    (hold : c.recovery_old_address = some oldA)
    (hnew : c.recovery_new_address = some newA)
    (hvoter : lookupKey st.members user = some voter)
    (hstat : voter.status = MemberStatus.Active)
    (hidx : voter.index < 64)
    (hom : lookupKey st.members oldA = some om)
    (hne : oldA ≠ newA) :
    (countOnes (c.recovery_votes_bitmap ||| 1 <<< voter.index) * 100 >
        activeMemberCount st c * 70 →
      vote_for_recovery user cid st =
        some { st with
               circles := insertKey st.circles cid
                 { c with member_addresses :=
                            c.member_addresses.set om.index newA,
                          recovery_old_address := none,
                          recovery_new_address := none,
                          recovery_votes_bitmap := 0 },
               members := removeKey (insertKey st.members newA
                 { om with address := newA }) oldA }) ∧
    (¬ countOnes (c.recovery_votes_bitmap ||| 1 <<< voter.index) * 100 >
        activeMemberCount st c * 70 →
      vote_for_recovery user cid st =
        some { st with
               circles := insertKey st.circles cid
                 { c with recovery_old_address := some oldA,
                          recovery_new_address := some newA,
                          recovery_votes_bitmap :=
                            c.recovery_votes_bitmap ||| 1 <<< voter.index } }) ∧
    lookupKey (removeKey (insertKey st.members newA { om with address := newA })
        oldA) newA = some { om with address := newA } := by
  refine ⟨?_, ?_, ?_⟩
  · intro hcons
    simp only [vote_for_recovery, hc, hold, hnew, hvoter,
      setBit_eq c.recovery_votes_bitmap voter.index hidx]
    rw [if_neg (not_not_intro hstat)]
    simp only [executeRecovery, hom]
    rw [if_pos hcons]
  · intro hcons
    simp only [vote_for_recovery, hc, hold, hnew, hvoter,
      setBit_eq c.recovery_votes_bitmap voter.index hidx]
    rw [if_neg (not_not_intro hstat)]
    simp only [executeRecovery]
    rw [if_neg hcons]
  · rw [lookupKey_removeKey_ne _ oldA newA hne, lookupKey_insertKey_self]

/-- C5 witness: 4 Active members.  After member `10`'s proposal
(auto-vote) and member `11`'s vote, `s5D` still holds the proposal and
the old member `13` (2 of 4 votes, 200 ≯ 280: recovery did NOT execute
at 50%); member `12`'s vote is the third (300 > 280) and executes the
move of `13`'s record to identity `99`. -/
theorem C5_witness :
    lookupKey s5D.circles 1 = some c5D ∧
    c5D.recovery_old_address = some 13 ∧
    c5D.recovery_new_address = some 99 ∧
    countOnes c5D.recovery_votes_bitmap = 2 ∧
    lookupKey s5D.members 13 = some om5D ∧
    lookupKey s5D.members 99 = none ∧
    activeMemberCount s5D c5D = 4 ∧
    lookupKey s5D.members 12 = some m5D ∧
    m5D.status = MemberStatus.Active ∧
    m5D.index < 64 ∧
    (13 : Nat) ≠ 99 ∧
    countOnes (c5D.recovery_votes_bitmap ||| 1 <<< m5D.index) = 3 ∧
    countOnes (c5D.recovery_votes_bitmap ||| 1 <<< m5D.index) * 100 >
      activeMemberCount s5D c5D * 70 ∧
    vote_for_recovery 12 1 s5D =
      some { s5D with
             circles := insertKey s5D.circles 1
               { c5D with member_addresses :=
                            c5D.member_addresses.set om5D.index 99,
                          recovery_old_address := none,
                          recovery_new_address := none,
                          recovery_votes_bitmap := 0 },
             members := removeKey (insertKey s5D.members 99
               { om5D with address := 99 }) 13 } ∧
    lookupKey (removeKey (insertKey s5D.members 99 { om5D with address := 99 })
        13) 99 = some { om5D with address := 99 } := by
  have h := C5_social_recovery s5D 12 1 c5D 13 99 m5D om5D rfl rfl rfl rfl
    (by decide) (by decide) rfl (by decide)
  refine ⟨rfl, rfl, rfl, by decide, rfl, rfl, by decide, rfl, by decide,
    by decide, by decide, by decide, by decide, ?_, h.2.2⟩
  exact h.1 (by decide)

/-- C9, amended: in every reachable store,
`member_count ≤ max_members ≤ 64` holds for every circle and
`payout_bitmap` never has a bit set at an index at or above
`member_count`; at the boundary, `create_circle` with `max_members = 65`
always fails, and with `max_members = 64` succeeds (for any admissible
remaining arguments).  The same guarantee does NOT extend to
`contribution_bitmap`: because `deposit` and `trigger_insurance_coverage`
never check that the member belongs to the target circle, a member of
another circle can set a contribution bit at an index at or above the
target's `member_count` (see the counterexample). -/
theorem C9_amended_invariant :
    (∀ st cid c, Reachable st → lookupKey st.circles cid = some c →
      c.member_count ≤ c.max_members ∧ c.max_members ≤ 64 ∧
      ∀ i, c.payout_bitmap.testBit i = true → i < c.member_count) ∧
    (∀ creator amount token dur bps nft now st,
      create_circle creator amount 65 token dur bps nft now st = none) ∧
    (∀ creator amount token dur bps nft now st,
      bps ≤ 10000 → st.circleCount + 1 < U64 → now + dur < U64 →
      (create_circle creator amount 64 token dur bps nft now st).isSome = true) := by
  refine ⟨?_, ?_, ?_⟩
  · intro st cid c hr hlk
    exact CirclesInv_lookup (Inv_reachable hr) hlk
  · intro creator amount token dur bps nft now st
    unfold create_circle
    split
    · rfl
    · rw [if_pos (by omega)]
  · intro creator amount token dur bps nft now st hbps hcnt hdur
    have h1 : chkAddU64 st.circleCount 1 = some (st.circleCount + 1) := by
      unfold chkAddU64
      rw [if_pos hcnt]
    have h2 : chkAddU64 now dur = some (now + dur) := by
      unfold chkAddU64
      rw [if_pos hdur]
    simp only [create_circle, h1, h2]
    rw [if_neg (by omega), if_neg (by omega)]
    rfl

/-- C9 witness: the reachable two-member circle of `sC` satisfies the
count/cap/payout invariant; creating a 65-slot circle fails and creating
a 64-slot circle succeeds. -/
theorem C9_witness :
    (cC.member_count ≤ cC.max_members ∧ cC.max_members ≤ 64 ∧
      ∀ i, cC.payout_bitmap.testBit i = true → i < cC.member_count) ∧
    create_circle 1 1000 65 50 604800 0 60 0 emptyState = none ∧
    (0 : Nat) ≤ 10000 ∧
    emptyState.circleCount + 1 < U64 ∧
    (0 : Nat) + 604800 < U64 ∧
    (create_circle 1 1000 64 50 604800 0 60 0 emptyState).isSome = true := by
  have h0 : Reachable s0 := Reachable.initStep Reachable.empty
  have h1 : Reachable sA :=
    Reachable.createStep h0
      (show create_circle 1 1000 2 50 604800 0 60 0 s0 = some (sA, 1) from rfl)
  have h2 : Reachable sB :=
    Reachable.joinStep h1 (show join_circle 10 1 1 sA = some sB from rfl)
  have h3 : Reachable sC :=
    Reachable.joinStep h2 (show join_circle 11 1 1 sB = some sC from rfl)
  exact ⟨C9_amended_invariant.1 sC 1 cC h3 rfl,
    C9_amended_invariant.2.1 1 1000 50 604800 0 60 0 emptyState,
    by decide, by decide, by decide,
    C9_amended_invariant.2.2 1 1000 50 604800 0 60 0 emptyState (by decide)
      (by decide) (by decide)⟩

end SoroSusu
